import Mathlib

/-!
# A shallow embedding of the pyjen API-object abstraction layer

This file models, in Lean, the parts of the pyjen client library needed to
settle the specification claims: the `data_requester` resource handle
(`src/pyjen/utils/data_requester.py`), the dashboard-level finders and
creators (`src/pyjen/jenkins.py`), view operations (`src/pyjen/view.py`),
the single-job operations used by batch methods (`src/pyjen/job.py`), the
plugin resolution entry point (`View.derived_object`), and the node polling
loop (`src/src/pyjen/node.py`).

Python strings are modelled as lists of characters.  The remote Jenkins
server, the `requests` HTTP library and `urllib.parse.urljoin` are external
collaborators; they are modelled at the boundary described in the spec
(sections 5 and 6) and their model definitions carry doc comments saying so.
-/

namespace PyJen

/-- Python strings, modelled as lists of characters. -/
abbrev PyStr := List Char

/-- Convert a Lean string literal into the character-list model. -/
def pys (s : String) : PyStr := s.data

/-! ## data_requester (src/pyjen/utils/data_requester.py)

The constructor stores `jenkins_url.rstrip("/\\") + "/"` (line 24), and a
credentials pair only when both username and password are truthy
(lines 25-28). -/

/-- The character set stripped by `rstrip("/\\")`. -/
def isSlashOrBackslash (c : Char) : Bool := c == '/' || c == '\\'

/-- Python `s.rstrip("/\\")`: drop every trailing slash and backslash. -/
def rstripSlashes (s : PyStr) : PyStr :=
  (s.reverse.dropWhile isSlashOrBackslash).reverse

/-- Python `s.lstrip("/\\")`: drop every leading slash and backslash. -/
def lstripSlashes (s : PyStr) : PyStr := s.dropWhile isSlashOrBackslash

/-- The URL normalization performed by the `data_requester` constructor:
`jenkins_url.rstrip("/\\") + "/"`. -/
def normalizeUrl (s : PyStr) : PyStr := rstripSlashes s ++ [ '/' ]

/-- The state of a `data_requester` object: its stored URL and its optional
(username, password) credentials pair. -/
structure DataRequester where
  url : PyStr
  credentials : Option (PyStr × PyStr)
deriving DecidableEq

/-- `data_requester.__init__` (lines 12-28): normalize the URL and keep the
credentials only when both the username and the password are truthy
(`None` or the empty string count as falsy). -/
def mkDataRequester (jenkins_url : PyStr) (username password : Option PyStr) :
    DataRequester :=
  { url := normalizeUrl jenkins_url
    credentials :=
      match username, password with
      | some u, some p => if u = [] ∨ p = [] then none else some (u, p)
      | _, _ => none }

/-- `data_requester.clone` (lines 40-57): pick the replacement URL when one
is given (falling back to the stored URL), then construct a fresh
`data_requester` with the same credentials. -/
def DataRequester.clone (d : DataRequester) (new_url : Option PyStr) :
    DataRequester :=
  let clone_url := match new_url with
    | some u => u
    | none => d.url
  match d.credentials with
  | some (u, p) => mkDataRequester clone_url (some u) (some p)
  | none => mkDataRequester clone_url none none

/-! ## The HTTP boundary -/

/-- Errors surfaced by the embedded operations. -/
inductive PErr where
  /-- an HTTP call raised (requests.HTTPError), carrying the status code -/
  | transport (status : Nat)
  /-- the body of a structured-data response could not be decoded -/
  | decode
  /-- a Python `assert` statement failed -/
  | assertionFailed
  /-- a Python TypeError was raised -/
  | typeError
  /-- PluginNotSupportedError, carrying the unresolved type token -/
  | pluginNotSupported (token : PyStr)
deriving DecidableEq

/-- An HTTP response as observed by the client: status code, body text and
header list. -/
structure HttpResponse where
  status : Nat
  body : PyStr
  headers : List (PyStr × PyStr)

/-- The GET side of the transport environment: what the server answers for a
given URL and credentials pair. -/
abbrev HttpEnv := PyStr → Option (PyStr × PyStr) → HttpResponse

/-- The POST side of the transport environment: the status code the server
answers for a given URL and credentials pair. -/
abbrev HttpPostEnv := PyStr → Option (PyStr × PyStr) → Nat

/-- Modelled from the `requests` library (an external collaborator):
`Response.raise_for_status()` raises `HTTPError` exactly when the status
code lies in [400, 600); informational, success and redirect codes do not
raise. -/
def raiseForStatusRaises (status : Nat) : Bool :=
  decide (400 ≤ status) && decide (status < 600)

/-- Modelled from `urllib.parse.urljoin` (an external collaborator),
restricted to the shapes used by `data_requester`: the base is an absolute
URL ending in a slash and the second argument is a relative path whose
leading slashes were already stripped, in which case the join appends the
relative path to the base. -/
def urljoin (base rel : PyStr) : PyStr := base ++ rel

/-- `data_requester._get_raw_text` (lines 75-87): perform the GET, call
`raise_for_status()` when the status is not 200, otherwise return the
response text. -/
def getRawText (d : DataRequester) (env : HttpEnv) (url : PyStr) :
    Except PErr PyStr :=
  let req := env url d.credentials
  if req.status ≠ 200 ∧ raiseForStatusRaises req.status then
    .error (.transport req.status)
  else
    .ok req.body

/-- The URL requested by `get_text` / `get_headers` / `post` for a given
optional path (lines 69-71, 127-129 and 153-155 all repeat this
computation: strip the path's leading slashes and join it to the stored
URL). -/
def resolvedPath (d : DataRequester) (path : Option PyStr) : PyStr :=
  match path with
  | some p => urljoin d.url (lstripSlashes p)
  | none => d.url

/-- `data_requester.get_text` (lines 59-73): resolve the optional path
against the stored URL, then fetch the raw text. -/
def getText (d : DataRequester) (env : HttpEnv) (path : Option PyStr) :
    Except PErr PyStr :=
  getRawText d env (resolvedPath d path)

/-- `data_requester.get_api_data` (lines 102-114): fetch `api/python`
under the stored URL and decode the body.  The decoding step (Python
`eval`) is passed in as a parameter `ev`, since its result type depends on
the endpoint. -/
def getApiData {α : Type} (d : DataRequester) (env : HttpEnv)
    (ev : PyStr → Except PErr α) : Except PErr α :=
  match getRawText d env (urljoin d.url (pys "api/python")) with
  | .error e => .error e
  | .ok txt => ev txt

/-- `data_requester.get_headers` (lines 116-136): resolve the optional
path, perform the GET, call `raise_for_status()` when the status is not
200, otherwise return the header dictionary. -/
def getHeaders (d : DataRequester) (env : HttpEnv) (path : Option PyStr) :
    Except PErr (List (PyStr × PyStr)) :=
  let req := env (resolvedPath d path) d.credentials
  if req.status ≠ 200 ∧ raiseForStatusRaises req.status then
    .error (.transport req.status)
  else
    .ok req.headers

/-- `data_requester.post` (lines 138-163): resolve the optional path,
perform the POST, call `raise_for_status()` when the status is not 200;
no value is returned. -/
def post (d : DataRequester) (penv : HttpPostEnv) (path : Option PyStr) :
    Except PErr Unit :=
  let status := penv (resolvedPath d path) d.credentials
  if status ≠ 200 ∧ raiseForStatusRaises status then
    .error (.transport status)
  else
    .ok ()

/-! ### Basic lemmas about the URL normalization -/

theorem dropWhile_dropWhile (p : Char → Bool) (l : List Char) :
    List.dropWhile p (List.dropWhile p l) = List.dropWhile p l := by
  induction l with
  | nil => rfl
  | cons a l ih =>
    by_cases h : p a
    · simp [List.dropWhile, h, ih]
    · simp [List.dropWhile, h]

theorem rstripSlashes_idem (s : PyStr) :
    rstripSlashes (rstripSlashes s) = rstripSlashes s := by
  unfold rstripSlashes
  rw [List.reverse_reverse, dropWhile_dropWhile]

theorem rstripSlashes_append_slash (s : PyStr) :
    rstripSlashes (s ++ [ '/' ]) = rstripSlashes s := by
  unfold rstripSlashes
  rw [List.reverse_append]
  simp [List.dropWhile, isSlashOrBackslash]

theorem normalizeUrl_idem (s : PyStr) :
    normalizeUrl (normalizeUrl s) = normalizeUrl s := by
  unfold normalizeUrl
  rw [rstripSlashes_append_slash, rstripSlashes_idem]

/-- The head of `dropWhile p l`, when it exists, falsifies `p`. -/
theorem head?_dropWhile_false (p : Char → Bool) (l : List Char) (c : Char)
    (h : (List.dropWhile p l).head? = some c) : p c = false := by
  induction l with
  | nil => simp [List.dropWhile] at h
  | cons a l ih =>
    by_cases hpa : p a
    · rw [List.dropWhile_cons_of_pos hpa] at h
      exact ih h
    · rw [List.dropWhile_cons_of_neg hpa] at h
      simp at h
      subst h
      simpa using hpa

theorem rstripSlashes_getLast? (s : PyStr) (c : Char)
    (h : (rstripSlashes s).getLast? = some c) : isSlashOrBackslash c = false := by
  unfold rstripSlashes at h
  rw [List.getLast?_reverse] at h
  exact head?_dropWhile_false _ _ _ h

/-- A URL that ends in exactly one trailing slash: it is some prefix followed
by `'/'`, and that prefix does not itself end in a slash or backslash. -/
def endsInOneSlash (s : PyStr) : Prop :=
  ∃ t, s = t ++ [ '/' ] ∧ ∀ c, t.getLast? = some c → isSlashOrBackslash c = false

theorem endsInOneSlash_normalizeUrl (s : PyStr) : endsInOneSlash (normalizeUrl s) :=
  ⟨rstripSlashes s, rfl, fun c hc => rstripSlashes_getLast? s c hc⟩

/-- Handle well-formedness: the stored URL is already normalized and any
stored credentials pair has nonempty components.  This holds for every
handle produced by the constructor or by `clone`. -/
def DataRequester.WF (d : DataRequester) : Prop :=
  d.url = normalizeUrl d.url ∧
    ∀ u p, d.credentials = some (u, p) → u ≠ [] ∧ p ≠ []

theorem WF_mkDataRequester (s : PyStr) (u p : Option PyStr) :
    (mkDataRequester s u p).WF := by
  constructor
  · exact (normalizeUrl_idem s).symm
  · intro a b hab
    unfold mkDataRequester at hab
    dsimp at hab
    match u, p with
    | none, none => simp at hab
    | none, some _ => simp at hab
    | some _, none => simp at hab
    | some x, some y =>
      dsimp at hab
      by_cases hxy : x = [] ∨ y = []
      · simp [hxy] at hab
      · simp [hxy] at hab
        push_neg at hxy
        exact ⟨hab.1 ▸ hxy.1, hab.2 ▸ hxy.2⟩

theorem clone_url_eq (d : DataRequester) (t : Option PyStr) :
    (d.clone t).url = normalizeUrl (t.getD d.url) := by
  unfold DataRequester.clone
  match d.credentials with
  | some (u, p) => cases t <;> rfl
  | none => cases t <;> rfl

theorem clone_credentials_eq (d : DataRequester) (hd : d.WF) (t : Option PyStr) :
    (d.clone t).credentials = d.credentials := by
  unfold DataRequester.clone
  match hcred : d.credentials with
  | some (u, p) =>
    have hup := hd.2 u p hcred
    dsimp [mkDataRequester]
    rw [if_neg (by push_neg; exact hup)]
  | none =>
    dsimp [mkDataRequester]

theorem WF_clone (d : DataRequester) (t : Option PyStr) : (d.clone t).WF := by
  unfold DataRequester.clone
  match d.credentials with
  | some (u, p) => cases t <;> exact WF_mkDataRequester _ _ _
  | none => cases t <;> exact WF_mkDataRequester _ _ _

/-- C10: every `data_requester` URL is stored normalized — the constructor
strips all trailing slashes and backslashes and appends exactly one `'/'`;
`clone` re-applies the same normalization to whichever URL it is given
(the stored URL when the argument is omitted); and two inputs denoting the
same logical URL (equal after stripping trailing slashes and backslashes)
are stored as equal strings. -/
theorem url_normalization_invariant :
    (∀ s u p, endsInOneSlash (mkDataRequester s u p).url) ∧
    (∀ (d : DataRequester) (t : Option PyStr),
        (d.clone t).url = normalizeUrl (t.getD d.url) ∧
        endsInOneSlash (d.clone t).url) ∧
    (∀ s₁ s₂ u p, rstripSlashes s₁ = rstripSlashes s₂ →
        (mkDataRequester s₁ u p).url = (mkDataRequester s₂ u p).url) := by
  refine ⟨fun s u p => endsInOneSlash_normalizeUrl s, fun d t => ?_, ?_⟩
  · refine ⟨clone_url_eq d t, ?_⟩
    rw [clone_url_eq d t]
    exact endsInOneSlash_normalizeUrl _
  · intro s₁ s₂ u p h
    show normalizeUrl s₁ = normalizeUrl s₂
    unfold normalizeUrl
    rw [h]

/-- Witness for C10 at concrete inputs: `"http://x//"` and `"http://x\\"`
strip to the same logical URL and are stored as the same string. -/
theorem url_normalization_invariant_witness :
    rstripSlashes (pys "http://x//") = rstripSlashes (pys "http://x\\") ∧
    (mkDataRequester (pys "http://x//") none none).url =
      (mkDataRequester (pys "http://x\\") none none).url :=
  ⟨by decide, url_normalization_invariant.2.2 _ _ none none (by decide)⟩

/-- C5 counterexample: `clone` does not store the given target URL verbatim;
it normalizes it.  Cloning to `"http://x//"` stores `"http://x/"`, so the
resulting handle's URL is not the given target. -/
theorem clone_url_not_verbatim_counterexample :
    ((mkDataRequester (pys "http://x/") (some (pys "u"))
        (some (pys "p"))).clone (some (pys "http://x//"))).url = pys "http://x/" ∧
    ((mkDataRequester (pys "http://x/") (some (pys "u"))
        (some (pys "p"))).clone (some (pys "http://x//"))).url ≠ pys "http://x//" := by
  constructor
  · decide
  · decide

/-- C5 (amended): `clone` is a pure function of the source handle and target
URL — it keeps the source's credentials, it keeps the source URL when the
target is omitted, it stores the normalized form of an explicit target, it
depends only on the source's credentials once a target is given, and two
handles cloned from sources with equal credentials to the same target give
identical results for every read (`get_text`, `get_api_data`) against the
same server responses. -/
theorem clone_pure_spec :
    (∀ d : DataRequester, d.WF → (d.clone none).url = d.url) ∧
    (∀ (d : DataRequester) (t : Option PyStr), d.WF →
        (d.clone t).credentials = d.credentials) ∧
    (∀ (d : DataRequester) (u : PyStr), (d.clone (some u)).url = normalizeUrl u) ∧
    (∀ (d₁ d₂ : DataRequester) (u : PyStr), d₁.credentials = d₂.credentials →
        d₁.clone (some u) = d₂.clone (some u)) ∧
    (∀ (d₁ d₂ : DataRequester) (u : PyStr) (env : HttpEnv)
        (α : Type) (ev : PyStr → Except PErr α) (path : Option PyStr),
        d₁.credentials = d₂.credentials →
        getText (d₁.clone (some u)) env path = getText (d₂.clone (some u)) env path ∧
        getApiData (d₁.clone (some u)) env ev = getApiData (d₂.clone (some u)) env ev) := by
  have hclone : ∀ (d₁ d₂ : DataRequester) (u : PyStr),
      d₁.credentials = d₂.credentials → d₁.clone (some u) = d₂.clone (some u) := by
    intro d₁ d₂ u h
    unfold DataRequester.clone
    rw [h]
  refine ⟨?_, ?_, ?_, hclone, ?_⟩
  · intro d hd
    rw [clone_url_eq d none]
    exact (hd.1).symm
  · intro d t hd
    exact clone_credentials_eq d hd t
  · intro d u
    rw [clone_url_eq d (some u)]
    rfl
  · intro d₁ d₂ u env α ev path h
    rw [hclone d₁ d₂ u h]
    exact ⟨rfl, rfl⟩

/-- Witness for C5 at concrete inputs: cloning an anonymous handle with the
target omitted keeps its URL, and two handles with equal credentials clone
to equal handles. -/
theorem clone_pure_spec_witness :
    ((mkDataRequester (pys "http://a/") none none).clone none).url =
      (mkDataRequester (pys "http://a/") none none).url ∧
    (mkDataRequester (pys "http://a/") none none).clone (some (pys "http://b")) =
      (mkDataRequester (pys "http://c/") none none).clone (some (pys "http://b")) :=
  ⟨clone_pure_spec.1 _ (WF_mkDataRequester _ _ _),
   clone_pure_spec.2.2.2.1 _ _ _ (by decide)⟩

/-! ### The HTTP status contract (C7) -/

theorem raiseForStatusRaises_iff (s : Nat) :
    raiseForStatusRaises s = true ↔ 400 ≤ s ∧ s < 600 := by
  simp [raiseForStatusRaises]

theorem getRawText_error (d : DataRequester) (env : HttpEnv) (url : PyStr)
    (h : 400 ≤ (env url d.credentials).status ∧ (env url d.credentials).status < 600) :
    getRawText d env url = .error (.transport (env url d.credentials).status) := by
  unfold getRawText
  rw [if_pos ⟨by omega, (raiseForStatusRaises_iff _).mpr h⟩]

theorem getRawText_ok (d : DataRequester) (env : HttpEnv) (url : PyStr)
    (h : ¬(400 ≤ (env url d.credentials).status ∧ (env url d.credentials).status < 600)) :
    getRawText d env url = .ok (env url d.credentials).body := by
  unfold getRawText
  rw [if_neg (fun hc => h ((raiseForStatusRaises_iff _).mp hc.2))]

/-- C7 counterexample: a 304 response has a non-2xx status, yet `get_text`
returns the body without raising — `raise_for_status` only raises for 4xx
and 5xx codes, so the claim "fails whenever the status is non-2xx" is
false. -/
theorem non2xx_not_raised_counterexample :
    ¬(200 ≤ 304 ∧ 304 < 300) ∧
    getText (mkDataRequester (pys "http://x/") none none)
        (fun _ _ => { status := 304, body := pys "cached", headers := [] }) none =
      .ok (pys "cached") := by
  constructor
  · decide
  · rfl

/-- C7 (amended): every read (`get_text`, `get_api_data`, `get_headers`) and
every `post` makes a single request and fails with a transport error
exactly when the response status is a 4xx or 5xx code; on any other status
(200, other 2xx, or 3xx as surfaced by the transport) the read returns the
response payload unchanged and `post` returns normally.  No retry is
performed: each operation issues exactly one request by construction. -/
theorem http_status_contract :
    (∀ (d : DataRequester) (env : HttpEnv) (path : Option PyStr),
      (400 ≤ (env (resolvedPath d path) d.credentials).status ∧
          (env (resolvedPath d path) d.credentials).status < 600 →
        getText d env path =
            .error (.transport (env (resolvedPath d path) d.credentials).status) ∧
        getHeaders d env path =
            .error (.transport (env (resolvedPath d path) d.credentials).status)) ∧
      (¬(400 ≤ (env (resolvedPath d path) d.credentials).status ∧
          (env (resolvedPath d path) d.credentials).status < 600) →
        getText d env path = .ok (env (resolvedPath d path) d.credentials).body ∧
        getHeaders d env path = .ok (env (resolvedPath d path) d.credentials).headers)) ∧
    (∀ (d : DataRequester) (penv : HttpPostEnv) (path : Option PyStr),
      (400 ≤ penv (resolvedPath d path) d.credentials ∧
          penv (resolvedPath d path) d.credentials < 600 →
        post d penv path = .error (.transport (penv (resolvedPath d path) d.credentials))) ∧
      (¬(400 ≤ penv (resolvedPath d path) d.credentials ∧
          penv (resolvedPath d path) d.credentials < 600) →
        post d penv path = .ok ())) ∧
    (∀ (d : DataRequester) (env : HttpEnv) (α : Type) (ev : PyStr → Except PErr α),
      (400 ≤ (env (urljoin d.url (pys "api/python")) d.credentials).status ∧
          (env (urljoin d.url (pys "api/python")) d.credentials).status < 600 →
        getApiData d env ev =
            .error (.transport (env (urljoin d.url (pys "api/python")) d.credentials).status)) ∧
      (¬(400 ≤ (env (urljoin d.url (pys "api/python")) d.credentials).status ∧
          (env (urljoin d.url (pys "api/python")) d.credentials).status < 600) →
        getApiData d env ev =
          ev (env (urljoin d.url (pys "api/python")) d.credentials).body)) := by
  refine ⟨fun d env path => ⟨fun h => ?_, fun h => ?_⟩,
          fun d penv path => ⟨fun h => ?_, fun h => ?_⟩,
          fun d env α ev => ⟨fun h => ?_, fun h => ?_⟩⟩
  · constructor
    · show getRawText _ _ _ = _
      exact getRawText_error d env _ h
    · unfold getHeaders
      show (if _ ∧ _ then _ else _) = _
      rw [if_pos ⟨by omega, (raiseForStatusRaises_iff _).mpr h⟩]
  · constructor
    · show getRawText _ _ _ = _
      exact getRawText_ok d env _ h
    · unfold getHeaders
      show (if _ ∧ _ then _ else _) = _
      rw [if_neg (fun hc => h ((raiseForStatusRaises_iff _).mp hc.2))]
  · unfold post
    show (if _ ∧ _ then _ else _) = _
    rw [if_pos ⟨by omega, (raiseForStatusRaises_iff _).mpr h⟩]
  · unfold post
    show (if _ ∧ _ then _ else _) = _
    rw [if_neg (fun hc => h ((raiseForStatusRaises_iff _).mp hc.2))]
  · unfold getApiData
    rw [getRawText_error d env _ h]
  · unfold getApiData
    rw [getRawText_ok d env _ h]

/-- Witness for C7 at concrete inputs: a 500 response raises a transport
error from `get_text`, and a 200 response to a `post` returns normally. -/
theorem http_status_contract_witness :
    getText (mkDataRequester (pys "http://x/") none none)
        (fun _ _ => { status := 500, body := pys "boom", headers := [] }) none =
      .error (.transport 500) ∧
    post (mkDataRequester (pys "http://x/") none none) (fun _ _ => 200) none = .ok () :=
  ⟨((http_status_contract.1 (mkDataRequester (pys "http://x/") none none)
      (fun _ _ => { status := 500, body := pys "boom", headers := [] }) none).1
      (by exact ⟨by norm_num, by norm_num⟩)).1,
   (http_status_contract.2.1 (mkDataRequester (pys "http://x/") none none)
      (fun _ _ => 200) none).2 (by omega)⟩

/-! ## Node.wait_for_idle (src/src/pyjen/node.py, lines 76-100)

Each evaluation of `Node.is_idle` performs a fresh fetch of the node's api
data; the sequence of observed values is modelled as a function
`idle : Nat → Bool`, where `idle k` is the value returned by the k-th
fetch.  The loop polls the flag once per iteration, sleeps one second,
accumulates parts of the wait time and breaks when the accumulated time
reaches `max_timeout`; the `return self.is_idle` statement then performs
one more fresh fetch. -/

/-- The index of the final fetch performed by `wait_for_idle` with a given
`max_timeout` (second argument: `max_timeout` minus the wait time
accumulated so far).  The loop polls `idle k`; on an idle observation it
exits; otherwise it sleeps, accumulates one second, and breaks once the
accumulated time reaches the timeout.  In every case the `return`
statement performs one further fetch, whose index this function yields.
Fetches `0 ... result - 1` are the loop-condition polls. -/
def waitExitFetch (idle : Nat → Bool) : Nat → Nat → Nat
  | k, 0 => k + 1
  | k, 1 => k + 1
  | k, r + 2 => if idle k then k + 1 else waitExitFetch idle (k + 1) (r + 1)

/-- `Node.wait_for_idle(max_timeout=t)`: the returned value is the idle
state observed by the final fetch at loop exit. -/
def wait_for_idle_timed (idle : Nat → Bool) (t : Nat) : Bool :=
  idle (waitExitFetch idle 0 t)

/-- `Node.wait_for_idle(max_timeout=None)`, fuel-indexed: with `fuel`
remaining loop iterations allowed, returns the index of the final fetch if
the loop exits within the fuel, and `none` if it is still running. -/
def waitExitFetchUntimed (idle : Nat → Bool) : Nat → Nat → Option Nat
  | _, 0 => none
  | k, fuel + 1 => if idle k then some (k + 1) else waitExitFetchUntimed idle (k + 1) fuel

theorem waitExitFetch_le (idle : Nat → Bool) :
    ∀ r k, waitExitFetch idle k r ≤ k + max r 1 := by
  intro r
  induction r using Nat.strong_induction_on with
  | _ r ih =>
    intro k
    match r with
    | 0 => simp only [waitExitFetch]; omega
    | 1 => simp only [waitExitFetch]; omega
    | r + 2 =>
      simp only [waitExitFetch]
      cases h : idle k
      · simp only [h, Bool.false_eq_true, if_false]
        have := ih (r + 1) (by omega) (k + 1)
        omega
      · simp only [h, if_true]; omega

theorem waitExitFetch_exit (idle : Nat → Bool) :
    ∀ r k, idle (waitExitFetch idle k r - 1) = true ∨
      waitExitFetch idle k r = k + max r 1 := by
  intro r
  induction r using Nat.strong_induction_on with
  | _ r ih =>
    intro k
    match r with
    | 0 => right; simp only [waitExitFetch]; omega
    | 1 => right; simp only [waitExitFetch]; omega
    | r + 2 =>
      simp only [waitExitFetch]
      cases h : idle k
      · simp only [h, Bool.false_eq_true, if_false]
        rcases ih (r + 1) (by omega) (k + 1) with hL | hR
        · left; exact hL
        · right; omega
      · left
        simp only [h, if_true, Nat.add_sub_cancel]

theorem waitExitFetchUntimed_none (idle : Nat → Bool)
    (hnever : ∀ k, idle k = false) : ∀ fuel k, waitExitFetchUntimed idle k fuel = none := by
  intro fuel
  induction fuel with
  | zero => intro k; rfl
  | succ fuel ih =>
    intro k
    simp only [waitExitFetchUntimed, hnever k, Bool.false_eq_true, if_false]
    exact ih (k + 1)

theorem waitExitFetchUntimed_some (idle : Nat → Bool) :
    ∀ fuel k e, waitExitFetchUntimed idle k fuel = some e → idle (e - 1) = true := by
  intro fuel
  induction fuel with
  | zero => intro k e h; exact absurd h (by simp [waitExitFetchUntimed])
  | succ fuel ih =>
    intro k e h
    simp only [waitExitFetchUntimed] at h
    by_cases hk : idle k
    · rw [if_pos hk] at h
      cases h
      simpa using hk
    · rw [if_neg hk] at h
      exact ih (k + 1) e h

/-- C9 counterexample: with `max_timeout = 0` and a node that is busy on the
first poll but idle afterwards, the loop still performs one polling
iteration (more than `max_timeout = 0`), and the call returns `True` even
though the wait timed out without the loop ever observing an idle state —
the return value is a fresh poll taken after the loop exits. -/
theorem wait_for_idle_counterexample :
    waitExitFetch (fun k => decide (1 ≤ k)) 0 0 = 1 ∧
    wait_for_idle_timed (fun k => decide (1 ≤ k)) 0 = true := by
  constructor
  · rfl
  · rfl

/-- C9 (amended): `wait_for_idle` polls the idle flag once per fixed
one-second iteration.  With `max_timeout = t` the loop performs at most
`max t 1` polling iterations (one iteration even when `t = 0`); it exits
only after observing an idle poll or after the accumulated wait time
reaches the timeout window; the returned value is the idle state of one
final fresh poll at exit, so a node that stays busy throughout the window
yields `False`.  With `max_timeout = None` the loop can only end through an
idle observation: it returns only when a poll observed idle, and if the
node is never idle it runs forever. -/
theorem wait_for_idle_spec :
    (∀ (idle : Nat → Bool) (t : Nat), waitExitFetch idle 0 t ≤ max t 1) ∧
    (∀ (idle : Nat → Bool) (t : Nat),
        idle (waitExitFetch idle 0 t - 1) = true ∨ waitExitFetch idle 0 t = max t 1) ∧
    (∀ (idle : Nat → Bool) (t : Nat), (∀ j, j ≤ max t 1 → idle j = false) →
        wait_for_idle_timed idle t = false) ∧
    (∀ (idle : Nat → Bool), (∀ k, idle k = false) →
        ∀ fuel, waitExitFetchUntimed idle 0 fuel = none) ∧
    (∀ (idle : Nat → Bool) (fuel e : Nat),
        waitExitFetchUntimed idle 0 fuel = some e → idle (e - 1) = true) := by
  refine ⟨fun idle t => by simpa using waitExitFetch_le idle t 0,
          fun idle t => by simpa using waitExitFetch_exit idle t 0,
          fun idle t h => ?_,
          fun idle h fuel => waitExitFetchUntimed_none idle h fuel 0,
          fun idle fuel e h => waitExitFetchUntimed_some idle fuel 0 e h⟩
  unfold wait_for_idle_timed
  apply h
  simpa using waitExitFetch_le idle t 0

/-- Witness for C9 at concrete inputs: a node that is never idle makes the
timed wait return `False`, and keeps the untimed wait running after three
iterations. -/
theorem wait_for_idle_spec_witness :
    wait_for_idle_timed (fun _ => false) 3 = false ∧
    waitExitFetchUntimed (fun _ => false) 0 3 = none :=
  ⟨wait_for_idle_spec.2.2.1 (fun _ => false) 3 (fun _ _ => rfl),
   wait_for_idle_spec.2.2.2.1 (fun _ => false) (fun _ => rfl) 3⟩

/-! ## Association-list primitives for the modelled server state

The remote Jenkins server is an external collaborator; the spec (section 6)
describes its REST surface.  Server state is modelled as association lists
from resource names to records, with ordinary first-match lookup, first-match
in-place update and first-match removal. -/

def alookup {β : Type} (n : PyStr) : List (PyStr × β) → Option β
  | [] => none
  | (m, c) :: rest => if m = n then some c else alookup n rest

def aupdate {β : Type} (n : PyStr) (c : β) : List (PyStr × β) → List (PyStr × β)
  | [] => []
  | (m, c0) :: rest => if m = n then (m, c) :: rest else (m, c0) :: aupdate n c rest

def aremove {β : Type} (n : PyStr) : List (PyStr × β) → List (PyStr × β)
  | [] => []
  | (m, c) :: rest => if m = n then rest else (m, c) :: aremove n rest

def akeys {β : Type} (l : List (PyStr × β)) : List PyStr := l.map Prod.fst

theorem alookup_append_left {β : Type} (n : PyStr) (l₁ l₂ : List (PyStr × β)) (c : β)
    (h : alookup n l₁ = some c) : alookup n (l₁ ++ l₂) = some c := by
  induction l₁ with
  | nil => simp [alookup] at h
  | cons e rest ih =>
    obtain ⟨m, c0⟩ := e
    simp only [alookup, List.cons_append] at h ⊢
    by_cases hm : m = n
    · rwa [if_pos hm] at h ⊢
    · rw [if_neg hm] at h ⊢
      exact ih h

theorem alookup_append_right {β : Type} (n : PyStr) (l₁ l₂ : List (PyStr × β))
    (h : alookup n l₁ = none) : alookup n (l₁ ++ l₂) = alookup n l₂ := by
  induction l₁ with
  | nil => rfl
  | cons e rest ih =>
    obtain ⟨m, c0⟩ := e
    simp only [alookup, List.cons_append] at h ⊢
    by_cases hm : m = n
    · rw [if_pos hm] at h; exact absurd h (by simp)
    · rw [if_neg hm] at h ⊢
      exact ih h

theorem alookup_aupdate_self {β : Type} (n : PyStr) (c : β) (l : List (PyStr × β)) :
    alookup n (aupdate n c l) = (alookup n l).map (fun _ => c) := by
  induction l with
  | nil => rfl
  | cons e rest ih =>
    obtain ⟨m, c0⟩ := e
    simp only [alookup, aupdate]
    by_cases hm : m = n
    · rw [if_pos hm]
      simp [alookup, if_pos hm]
    · rw [if_neg hm]
      simp [alookup, if_neg hm, ih]

theorem alookup_aupdate_ne {β : Type} (k n : PyStr) (c : β) (l : List (PyStr × β))
    (h : k ≠ n) : alookup k (aupdate n c l) = alookup k l := by
  induction l with
  | nil => rfl
  | cons e rest ih =>
    obtain ⟨m, c0⟩ := e
    simp only [alookup, aupdate]
    by_cases hm : m = n
    · rw [if_pos hm]
      simp only [alookup]
      rw [if_neg (by rw [hm]; exact fun hnk => h hnk.symm),
          if_neg (by rw [hm]; exact fun hnk => h hnk.symm)]
    · rw [if_neg hm]
      simp only [alookup]
      by_cases hmk : m = k
      · rw [if_pos hmk, if_pos hmk]
      · rw [if_neg hmk, if_neg hmk, ih]

theorem aupdate_self {β : Type} (n : PyStr) (c : β) (l : List (PyStr × β))
    (h : alookup n l = some c) : aupdate n c l = l := by
  induction l with
  | nil => rfl
  | cons e rest ih =>
    obtain ⟨m, c0⟩ := e
    simp only [alookup] at h
    simp only [aupdate]
    by_cases hm : m = n
    · rw [if_pos hm] at h ⊢
      cases h
      rfl
    · rw [if_neg hm] at h ⊢
      rw [ih h]

theorem aupdate_append_fresh {β : Type} (n : PyStr) (c c0 : β) (l : List (PyStr × β))
    (h : alookup n l = none) : aupdate n c (l ++ [(n, c0)]) = l ++ [(n, c)] := by
  induction l with
  | nil => simp [aupdate]
  | cons e rest ih =>
    obtain ⟨m, c1⟩ := e
    simp only [alookup] at h
    by_cases hm : m = n
    · rw [if_pos hm] at h; exact absurd h (by simp)
    · rw [if_neg hm] at h
      simp only [List.cons_append, aupdate, if_neg hm]
      exact congrArg (List.cons (m, c1)) (ih h)

theorem alookup_eq_none_iff {β : Type} (n : PyStr) (l : List (PyStr × β)) :
    alookup n l = none ↔ n ∉ akeys l := by
  induction l with
  | nil => simp [alookup, akeys]
  | cons e rest ih =>
    obtain ⟨m, c⟩ := e
    simp only [alookup, akeys, List.map_cons, List.mem_cons]
    by_cases hm : m = n
    · rw [if_pos hm]
      constructor
      · intro hc
        exact Option.noConfusion hc
      · intro hnot
        exact absurd (Or.inl hm.symm) hnot
    · rw [if_neg hm]
      simp only [akeys] at ih
      rw [ih]
      constructor
      · intro hnone hor
        rcases hor with h1 | h2
        · exact hm h1.symm
        · exact hnone h2
      · intro hnot hmem
        exact hnot (Or.inr hmem)

theorem akeys_aupdate {β : Type} (n : PyStr) (c : β) (l : List (PyStr × β)) :
    akeys (aupdate n c l) = akeys l := by
  induction l with
  | nil => rfl
  | cons e rest ih =>
    obtain ⟨m, c0⟩ := e
    simp only [aupdate]
    by_cases hm : m = n
    · rw [if_pos hm]
      simp [akeys]
    · rw [if_neg hm]
      simp only [akeys, List.map_cons] at ih ⊢
      rw [ih]

theorem alookup_aremove_ne {β : Type} (k n : PyStr) (l : List (PyStr × β))
    (h : k ≠ n) : alookup k (aremove n l) = alookup k l := by
  induction l with
  | nil => rfl
  | cons e rest ih =>
    obtain ⟨m, c⟩ := e
    simp only [aremove, alookup]
    by_cases hm : m = n
    · rw [if_pos hm, if_neg (fun hmk : m = k => h (hmk ▸ hm))]
    · rw [if_neg hm]
      simp only [alookup]
      by_cases hmk : m = k
      · rw [if_pos hmk, if_pos hmk]
      · rw [if_neg hmk, if_neg hmk, ih]

theorem alookup_aremove_self {β : Type} (n : PyStr) (l : List (PyStr × β))
    (hnd : (akeys l).Nodup) : alookup n (aremove n l) = none := by
  induction l with
  | nil => rfl
  | cons e rest ih =>
    obtain ⟨m, c⟩ := e
    simp only [akeys, List.map_cons, List.nodup_cons] at hnd
    simp only [aremove]
    by_cases hm : m = n
    · rw [if_pos hm]
      rw [alookup_eq_none_iff]
      rw [hm] at hnd
      exact hnd.1
    · rw [if_neg hm]
      simp only [alookup, if_neg hm]
      exact ih hnd.2

/-! ## The modelled Jenkins server: jobs (C1, C8) -/

/-- A job as known to the modelled server: the name it reports through its
api data, the template type it was created from, and whether it is
disabled. -/
structure JobRec where
  apiName : PyStr
  jobType : PyStr
  disabled : Bool
deriving DecidableEq

/-- Modelled from the spec (section 6): the server's job table, keyed by
the job name appearing in each job's child URL (`<root>/job/<name>`). -/
structure JSrv where
  jobs : List (PyStr × JobRec)
deriving DecidableEq

/-- Modelled from the spec (section 4.4): POSTing the templated XML for
`job_type` to the `createItem` endpoint with the `name` parameter creates
a fresh enabled job of that type under the predictable child URL;
creating over an existing name is rejected by the server. -/
def srvCreateItem (s : JSrv) (job_name job_type : PyStr) : Except PErr JSrv :=
  match alookup job_name s.jobs with
  | some _ => .error (.transport 400)
  | none => .ok { jobs := s.jobs ++
      [(job_name, { apiName := job_name, jobType := job_type, disabled := false })] }

/-- The `name` field of the api data of the job at the given URL key
(`job.get_name`, src/pyjen/job.py lines 27-34); fetching a job that does
not exist is a transport failure (404). -/
def jobApiName (s : JSrv) (key : PyStr) : Except PErr PyStr :=
  match alookup key s.jobs with
  | some r => .ok r.apiName
  | none => .error (.transport 404)

/-- Modelled from the spec (section 6): the `color` field reported in a
job's api data is the string `"disabled"` exactly when the job is
disabled. -/
def jobColor (r : JobRec) : PyStr :=
  if r.disabled then pys "disabled" else pys "blue"

/-- `job.is_disabled` (src/pyjen/job.py lines 285-294): fetch the api data
and compare the `color` field with the string `"disabled"`. -/
def jobIsDisabled (s : JSrv) (key : PyStr) : Except PErr Bool :=
  match alookup key s.jobs with
  | some r => .ok (decide (jobColor r = pys "disabled"))
  | none => .error (.transport 404)

/-- `job.disable` (src/pyjen/job.py lines 260-269): POST to the job's
`/disable` endpoint; the server marks the job disabled; a POST against a
deleted or missing job is a 404 transport failure. -/
def srvDisableJob (s : JSrv) (key : PyStr) : Except PErr JSrv :=
  match alookup key s.jobs with
  | some r => .ok { jobs := aupdate key { r with disabled := true } s.jobs }
  | none => .error (.transport 404)

/-- The verification-and-disable tail of `Jenkins.create_job`
(src/pyjen/jenkins.py lines 362-371): construct a handle at the
predictable child URL, re-fetch the job's name, `assert` it equals the
requested name (an `AssertionError` if not, a transport failure if the
fetch fails), then disable the newly created job and return its proxy. -/
def verifyAndDisable (s : JSrv) (job_name : PyStr) : Except PErr (JSrv × PyStr) :=
  match jobApiName s job_name with
  | .error e => .error e
  | .ok fetched =>
    if fetched = job_name then
      match srvDisableJob s job_name with
      | .error e => .error e
      | .ok s2 => .ok (s2, job_name)
    else
      .error .assertionFailed

/-- `Jenkins.create_job` (src/pyjen/jenkins.py lines 344-371): POST the
templated XML for the job type to `createItem`, then verify the job exists
by re-fetching its name, disable it immediately and return the typed
proxy. -/
def Jenkins.create_job (s : JSrv) (job_name job_type : PyStr) :
    Except PErr (JSrv × PyStr) :=
  match srvCreateItem s job_name job_type with
  | .error e => .error e
  | .ok s1 => verifyAndDisable s1 job_name

/-- `Jenkins.find_job` (src/pyjen/jenkins.py lines 234-251): fetch the
dashboard api data once and return a proxy for the first listed job whose
reported name matches, or `None`. -/
def Jenkins.find_job (s : JSrv) (job_name : PyStr) : Option PyStr :=
  (s.jobs.find? (fun e => decide (e.2.apiName = job_name))).map (fun e => e.1)

/-- C1: creating a fresh job POSTs the templated XML, verifies existence by
re-fetching the job's name, disables the job immediately and returns its
proxy; a `find_job` on the resulting state returns a job whose reported
name equals the requested name and whose disabled-state is true.  At the
verification step, a name mismatch raises an `AssertionError` and a fetch
failure raises a transport error; in both cases the call aborts without
retrying (and without reaching the disable step). -/
theorem create_job_then_find_spec (s : JSrv) (n t : PyStr)
    (hkey : alookup n s.jobs = none)
    (hapi : ∀ e ∈ s.jobs, e.2.apiName ≠ n) :
    (∃ s2, Jenkins.create_job s n t = .ok (s2, n) ∧
       alookup n s2.jobs = some { apiName := n, jobType := t, disabled := true } ∧
       Jenkins.find_job s2 n = some n ∧
       jobApiName s2 n = .ok n ∧
       jobIsDisabled s2 n = .ok true) ∧
    (∀ (s0 : JSrv) (r : JobRec), alookup n s0.jobs = some r → r.apiName ≠ n →
       verifyAndDisable s0 n = .error .assertionFailed) ∧
    (∀ s0 : JSrv, alookup n s0.jobs = none →
       verifyAndDisable s0 n = .error (.transport 404)) := by
  refine ⟨?_, ?_, ?_⟩
  · set rec0 : JobRec := { apiName := n, jobType := t, disabled := false } with hrec0
    set rec1 : JobRec := { apiName := n, jobType := t, disabled := true } with hrec1
    have hlook1 : alookup n (s.jobs ++ [(n, rec0)]) = some rec0 := by
      rw [alookup_append_right n s.jobs _ hkey]
      simp [alookup]
    refine ⟨{ jobs := s.jobs ++ [(n, rec1)] }, ?_, ?_, ?_, ?_, ?_⟩
    · unfold Jenkins.create_job srvCreateItem
      rw [hkey]
      unfold verifyAndDisable jobApiName
      dsimp only
      rw [hlook1]
      dsimp only
      rw [if_pos rfl]
      unfold srvDisableJob
      dsimp only
      rw [hlook1]
      dsimp only
      rw [aupdate_append_fresh n _ _ s.jobs hkey]
    · rw [alookup_append_right n s.jobs _ hkey]
      simp [alookup]
    · unfold Jenkins.find_job
      dsimp only
      rw [List.find?_append]
      have hnone : s.jobs.find? (fun e => decide (e.2.apiName = n)) = none := by
        rw [List.find?_eq_none]
        intro e he
        simpa using hapi e he
      rw [hnone]
      simp [List.find?]
    · unfold jobApiName
      rw [alookup_append_right n s.jobs _ hkey]
      simp [alookup]
    · unfold jobIsDisabled
      rw [alookup_append_right n s.jobs _ hkey]
      simp [alookup, jobColor]
  · intro s0 r hr hne
    unfold verifyAndDisable jobApiName
    rw [hr]
    dsimp only
    rw [if_neg hne]
  · intro s0 h0
    unfold verifyAndDisable jobApiName
    rw [h0]

/-- Witness for C1 at a concrete dashboard: creating `"newjob"` on a server
already holding one other job yields a disabled job that `find_job`
reports under the requested name. -/
theorem create_job_then_find_spec_witness :
    ∃ s2, Jenkins.create_job
        { jobs := [(pys "old", { apiName := pys "old", jobType := pys "project",
                                 disabled := false })] }
        (pys "newjob") (pys "project") = .ok (s2, pys "newjob") ∧
      alookup (pys "newjob") s2.jobs =
        some { apiName := pys "newjob", jobType := pys "project", disabled := true } ∧
      Jenkins.find_job s2 (pys "newjob") = some (pys "newjob") ∧
      jobApiName s2 (pys "newjob") = .ok (pys "newjob") ∧
      jobIsDisabled s2 (pys "newjob") = .ok true :=
  (create_job_then_find_spec
      { jobs := [(pys "old", { apiName := pys "old", jobType := pys "project",
                               disabled := false })] }
      (pys "newjob") (pys "project") (by decide) (by decide)).1

/-! ## View.disable_all_jobs (C8) -/

/-- A view together with the server's job table: `members` is the job list
returned by the single `get_api_data` fetch that `View.jobs` performs
(src/pyjen/view.py lines 71-93). -/
structure ViewJobs where
  srv : JSrv
  members : List PyStr
deriving DecidableEq

/-- The loop body of `disable_all_jobs`: apply `job.disable` to each job of
the already-fetched list, in list order; a failing disable aborts the
iteration. -/
def disableSeq (s : JSrv) : List PyStr → Except PErr JSrv
  | [] => .ok s
  | j :: rest =>
    match srvDisableJob s j with
    | .error e => .error e
    | .ok s1 => disableSeq s1 rest

/-- `View.disable_all_jobs` (src/pyjen/view.py lines 171-175): fetch the
view's job list once, then disable each contained job in list order. -/
def disable_all_jobs (v : ViewJobs) : Except PErr ViewJobs :=
  match disableSeq v.srv v.members with
  | .error e => .error e
  | .ok s1 => .ok { v with srv := s1 }

theorem disableSeq_ok (L : List PyStr) : ∀ s : JSrv,
    (∀ j ∈ L, (alookup j s.jobs).isSome) →
    ∃ s1, disableSeq s L = .ok s1 ∧
      ∀ k, alookup k s1.jobs =
        if k ∈ L then (alookup k s.jobs).map (fun r => { r with disabled := true })
        else alookup k s.jobs := by
  induction L with
  | nil =>
    intro s _
    refine ⟨s, rfl, fun k => ?_⟩
    simp
  | cons j rest ih =>
    intro s hmem
    obtain ⟨r, hr⟩ : ∃ r, alookup j s.jobs = some r := by
      have := hmem j (by simp)
      exact Option.isSome_iff_exists.mp this
    have hstep : srvDisableJob s j =
        .ok { jobs := aupdate j { r with disabled := true } s.jobs } := by
      unfold srvDisableJob
      rw [hr]
    have hlook' : ∀ k, alookup k (aupdate j { r with disabled := true } s.jobs) =
        if k = j then some { r with disabled := true } else alookup k s.jobs := by
      intro k
      by_cases hk : k = j
      · subst hk
        rw [if_pos rfl, alookup_aupdate_self, hr]
        rfl
      · rw [if_neg hk, alookup_aupdate_ne k j _ _ hk]
    obtain ⟨s1, hseq, hchar⟩ := ih { jobs := aupdate j { r with disabled := true } s.jobs }
      (by
        intro m hm
        rw [hlook' m]
        by_cases hmj : m = j
        · rw [if_pos hmj]; rfl
        · rw [if_neg hmj]
          exact hmem m (by simp [hm]))
    refine ⟨s1, ?_, ?_⟩
    · unfold disableSeq
      rw [hstep]
      exact hseq
    · intro k
      rw [hchar k, hlook' k]
      by_cases hk : k = j
      · subst hk
        simp [hr]
      · simp [hk]

theorem disableSeq_noop (L : List PyStr) : ∀ s : JSrv,
    (∀ j ∈ L, ∃ r, alookup j s.jobs = some r ∧ r.disabled = true) →
    disableSeq s L = .ok s := by
  induction L with
  | nil => intro s _; rfl
  | cons j rest ih =>
    intro s hmem
    obtain ⟨r, hr, hrd⟩ := hmem j (by simp)
    have hfix : { r with disabled := true } = r := by
      cases r
      simp_all
    unfold disableSeq srvDisableJob
    rw [hr]
    dsimp only
    rw [hfix, aupdate_self j r s.jobs hr]
    exact ih s (fun m hm => hmem m (by simp [hm]))

/-- C8: `disable_all_jobs` fetches the view's job list once and disables
each contained job in list order; afterwards every job contained in the
view is disabled, the view's membership is unchanged, and running
`disable_all_jobs` again returns the very same state — the second call is
a no-op, since disabling an already-disabled job does not change it. -/
theorem disable_all_jobs_idempotent (v : ViewJobs)
    (hmem : ∀ j ∈ v.members, (alookup j v.srv.jobs).isSome) :
    ∃ v', disable_all_jobs v = .ok v' ∧
      v'.members = v.members ∧
      (∀ j ∈ v.members, ∃ r, alookup j v'.srv.jobs = some r ∧ r.disabled = true) ∧
      disable_all_jobs v' = .ok v' := by
  obtain ⟨s1, hseq, hchar⟩ := disableSeq_ok v.members v.srv hmem
  refine ⟨{ v with srv := s1 }, ?_, rfl, ?_, ?_⟩
  · unfold disable_all_jobs
    rw [hseq]
  · intro j hj
    obtain ⟨r, hr⟩ := Option.isSome_iff_exists.mp (hmem j hj)
    refine ⟨{ r with disabled := true }, ?_, rfl⟩
    show alookup j s1.jobs = _
    rw [hchar j, if_pos hj, hr]
    rfl
  · have hnoop : disableSeq s1 v.members = .ok s1 := by
      apply disableSeq_noop
      intro j hj
      obtain ⟨r, hr⟩ := Option.isSome_iff_exists.mp (hmem j hj)
      refine ⟨{ r with disabled := true }, ?_, rfl⟩
      rw [hchar j, if_pos hj, hr]
      rfl
    unfold disable_all_jobs
    dsimp only
    rw [hnoop]

/-- Witness for C8 at a concrete view: disabling all jobs of a view holding
one enabled and one already-disabled job succeeds, leaves both disabled,
and is a no-op the second time. -/
theorem disable_all_jobs_idempotent_witness :
    ∃ v', disable_all_jobs
        { srv := { jobs := [(pys "a", { apiName := pys "a", jobType := pys "project",
                                        disabled := false }),
                            (pys "b", { apiName := pys "b", jobType := pys "project",
                                        disabled := true })] },
          members := [pys "a", pys "b"] } = .ok v' ∧
      v'.members = [pys "a", pys "b"] ∧
      (∀ j ∈ [pys "a", pys "b"], ∃ r, alookup j v'.srv.jobs = some r ∧ r.disabled = true) ∧
      disable_all_jobs v' = .ok v' :=
  disable_all_jobs_idempotent
    { srv := { jobs := [(pys "a", { apiName := pys "a", jobType := pys "project",
                                    disabled := false }),
                        (pys "b", { apiName := pys "b", jobType := pys "project",
                                    disabled := true })] },
      members := [pys "a", pys "b"] }
    (by decide)

/-! ## Jenkins.find_view (C2) -/

/-- A view as the dashboard reports it: its name, whether its resolved type
supports sub-views, and its sub-views.  The `contains_views` flag is
modelled from the spec: the plugin-resolved nested-view type reports True
(`NestedView.contains_views`, src/pyjen/plugins/nestedview.py lines
58-63), other view types report False. -/
inductive VTree where
  | node (vname : PyStr) (isNested : Bool) (subs : List VTree)

def VTree.vname : VTree → PyStr
  | .node n _ _ => n

def VTree.isNested : VTree → Bool
  | .node _ b _ => b

mutual

/-- Whether a view or any view nested inside it carries the given name. -/
def VTree.containsName (t : PyStr) : VTree → Bool
  | .node n _ subs => decide (n = t) || listContainsName t subs

def listContainsName (t : PyStr) : List VTree → Bool
  | [] => false
  | v :: rest => VTree.containsName t v || listContainsName t rest

end

/-- Whether any view of the dashboard, including views nested inside
sub-views, carries the given name. -/
def anyViewNamed (dash : List VTree) (t : PyStr) : Bool := listContainsName t dash

/-- The first loop of `find_view` (src/pyjen/jenkins.py lines 267-274):
the first top-level view whose reported name matches the target. -/
def firstNamed (target : PyStr) : List VTree → Option VTree
  | [] => none
  | v :: rest => if v.vname = target then some v else firstNamed target rest

/-- The second loop of `find_view` (lines 276-286): for each top-level view
whose resolved type supports sub-views, the code calls
`self._find_view_helper(v, view_name)` — but `_find_view_helper` is
declared a `staticmethod` whose parameter list still begins with `self`
(lines 290-291), so this two-argument call raises
`TypeError: missing 1 required positional argument` at the first such
view.  Views without sub-view support are skipped; when no view supports
sub-views the loop completes and the method returns `None`. -/
def findViewSecondLoop : List VTree → Except PErr (Option PyStr)
  | [] => .ok none
  | v :: rest => if v.isNested then .error .typeError else findViewSecondLoop rest

/-- `Jenkins.find_view` (src/pyjen/jenkins.py lines 253-288). -/
def Jenkins.find_view (dash : List VTree) (target : PyStr) :
    Except PErr (Option PyStr) :=
  match firstNamed target dash with
  | some v => .ok (some v.vname)
  | none => findViewSecondLoop dash

/-- C2 (code bug): with a single nested top-level view named `"A"` that has
no sub-views, searching for the absent name `"nonexistent"` raises a
`TypeError` from the broken `_find_view_helper` invocation instead of
returning `None` as the method's own docstring promises; only on a
dashboard with no nested views does the search fall through to `None`. -/
theorem find_view_absent_name_bug :
    anyViewNamed [VTree.node (pys "A") true []] (pys "nonexistent") = false ∧
    Jenkins.find_view [VTree.node (pys "A") true []] (pys "nonexistent") =
      .error .typeError ∧
    Jenkins.find_view [VTree.node (pys "A") false []] (pys "nonexistent") =
      .ok none := by
  refine ⟨?_, rfl, rfl⟩
  decide

/-! ## View.derived_object (C6) -/

/-- Modelled from the spec (section 4.2): the view-namespace plugin
registry, as a list of registered type tokens, and the lookup that
`init_extension_plugin` performs against it for the view's reported token
(pyjen/utils/pluginapi.py is not among the sources). -/
def init_extension_plugin (registry : List PyStr) (token : PyStr) : Option PyStr :=
  if token ∈ registry then some token else none

/-- `View.derived_object` (src/pyjen/view.py lines 22-33): look for a
plugin supporting the view's reported type; when none is found, raise
`PluginNotSupportedError` carrying the type token.  There is no generic
fallback in this code path. -/
def derived_object (registry : List PyStr) (token : PyStr) : Except PErr PyStr :=
  match init_extension_plugin registry token with
  | some plugin => .ok plugin
  | none => .error (.pluginNotSupported token)

/-- C6 counterexample: resolving a view whose reported token has no
registered plugin does not return a generic base view object — it fails
with `PluginNotSupportedError` carrying the token. -/
theorem derived_object_counterexample :
    derived_object [pys "listview"] (pys "unknown.View") =
      .error (.pluginNotSupported (pys "unknown.View")) ∧
    (derived_object [pys "listview"] (pys "unknown.View")).isOk = false := by
  constructor
  · rfl
  · rfl

/-- C6 (amended): for every view whose server-reported type token has no
registered plugin implementation, `derived_object` aborts with
`PluginNotSupportedError` carrying the unresolved token — views behave
like embedded config fragments here; no generic capability-limited
fallback object is returned. -/
theorem derived_object_unregistered (registry : List PyStr) (token : PyStr)
    (h : init_extension_plugin registry token = none) :
    derived_object registry token = .error (.pluginNotSupported token) := by
  unfold derived_object
  rw [h]

/-- Witness for C6 at a concrete registry: an unregistered token aborts
with the token inside the error. -/
theorem derived_object_unregistered_witness :
    derived_object [pys "nestedview"] (pys "a.B") =
      .error (.pluginNotSupported (pys "a.B")) :=
  derived_object_unregistered [pys "nestedview"] (pys "a.B") (by decide)

/-! ## View.clone and View.rename (C3, C4) -/

/-- A view's config document, as the structured wrapper `ViewXML` sees it:
the name element, the root-node plugin type token, and the remaining
configuration payload (opaque to the operations modelled here). -/
structure ViewCfg where
  cfgName : PyStr
  typeToken : PyStr
  rest : Nat
deriving DecidableEq

/-- Modelled from the spec (section 6): the server's view table, keyed by
dashboard view name, together with the dashboard root URL (stored with its
trailing slash). -/
structure VSrv where
  root : PyStr
  views : List (PyStr × ViewCfg)
deriving DecidableEq

/-- The canonical URL of a dashboard view: `<root>view/<name>/`. -/
def viewUrl (root n : PyStr) : PyStr := root ++ pys "view/" ++ n ++ pys "/"

/-- Python `s.replace(old, new)` for nonempty `old`: replace every
non-overlapping occurrence, scanning left to right.  The fuel argument is
the length of the subject string, which bounds the number of scanning
steps. -/
def replaceAux (pat rep : PyStr) : Nat → PyStr → PyStr
  | _, [] => []
  | 0, s => s
  | fuel + 1, c :: rest =>
    if pat.isPrefixOf (c :: rest) then
      rep ++ replaceAux pat rep fuel (List.drop pat.length (c :: rest))
    else
      c :: replaceAux pat rep fuel rest

/-- Python `s.replace(old, new)` as used by `View.clone` (line 225); the
patterns it is called with are view names, which are nonempty. -/
def replaceL (s pat rep : PyStr) : PyStr :=
  if pat = [] then s else replaceAux pat rep s.length s

/-- Modelled from the spec (section 4.4): the server's `createView`
endpoint creates a new view with the requested name whose fresh
configuration carries the requested mode as its type token; creation over
an existing name is rejected. -/
def srvCreateView (s : VSrv) (n mode : PyStr) : Except PErr VSrv :=
  match alookup n s.views with
  | some _ => .error (.transport 400)
  | none => .ok { s with views :=
      s.views ++ [(n, { cfgName := n, typeToken := mode, rest := 0 })] }

/-- Resolve a URL to the dashboard view it addresses: the server serves a
view's endpoints only under that view's canonical URL. -/
def resolveViewUrl (s : VSrv) (u : PyStr) : Option PyStr :=
  (s.views.find? (fun e => decide (viewUrl s.root e.1 = u))).map (fun e => e.1)

/-- POSTing a config document to `<url>config.xml`
(`View.config_xml` setter, src/pyjen/view.py lines 136-151): a wholesale
replace of the addressed view's configuration; a URL addressing no view is
a 404 transport failure. -/
def srvSetConfigByUrl (s : VSrv) (u : PyStr) (c : ViewCfg) : Except PErr VSrv :=
  match resolveViewUrl s u with
  | none => .error (.transport 404)
  | some n => .ok { s with views := aupdate n c s.views }

/-- POSTing to `<url>doDelete` (`View.delete`, src/pyjen/view.py lines
153-155): remove the addressed view.  `httpOk` injects the transport
outcome of the POST, so that the behavior of `rename` under a failing
delete can be stated. -/
def srvDeleteByUrl (s : VSrv) (u : PyStr) (httpOk : Bool) : Except PErr VSrv :=
  match httpOk with
  | true =>
    match resolveViewUrl s u with
    | none => .error (.transport 404)
    | some n => .ok { s with views := aremove n s.views }
  | false => .error (.transport 500)

/-- `View.type` (src/pyjen/view.py lines 35-40): the plugin token parsed
from the root node of the view's config document. -/
def viewType (s : VSrv) (n : PyStr) : Except PErr PyStr :=
  match alookup n s.views with
  | some c => .ok c.typeToken
  | none => .error (.transport 404)

/-- `View.name` (src/pyjen/view.py lines 58-69): the `name` field of the
view's api data — the server reports the view's dashboard name. -/
def viewApiName (s : VSrv) (n : PyStr) : Except PErr PyStr :=
  match alookup n s.views with
  | some _ => .ok n
  | none => .error (.transport 404)

/-- `ViewXML.rename`, modelled from the spec (section 4.3): mutate only the
name-bearing element of the config document, leaving every other element
untouched (pyjen/utils/viewxml.py is not among the sources). -/
def vxmlRename (c : ViewCfg) (n : PyStr) : ViewCfg := { c with cfgName := n }

/-- `View.clone` (src/pyjen/view.py lines 201-231), against the modelled
server, following the source order: read `self.type`, POST `createView`
with `mode` equal to that type, compute the clone's URL by textually
replacing `self.name` with the new name inside `self.url`, fetch
`self.config_xml`, rewrite its name element, POST it to the computed URL,
and return a view proxy addressed at that URL.  The first component of the
result is the server state when the call returns or raises. -/
def View.clone (s : VSrv) (self new_view_name : PyStr) :
    VSrv × Except PErr PyStr :=
  match viewType s self with
  | .error e => (s, .error e)
  | .ok view_type =>
    match srvCreateView s new_view_name view_type with
    | .error e => (s, .error e)
    | .ok s1 =>
      match viewApiName s1 self with
      | .error e => (s1, .error e)
      | .ok self_name =>
        let new_url := replaceL (viewUrl s1.root self) self_name new_view_name
        match alookup self s1.views with
        | none => (s1, .error (.transport 404))
        | some cfg =>
          match srvSetConfigByUrl s1 new_url (vxmlRename cfg new_view_name) with
          | .error e => (s1, .error e)
          | .ok s2 => (s2, .ok new_url)

/-- `View.rename` (src/pyjen/view.py lines 233-240): clone this view to the
new name, then delete the original, and return the new view object. -/
def View.rename (s : VSrv) (self new_name : PyStr) (deleteOk : Bool) :
    VSrv × Except PErr PyStr :=
  match View.clone s self new_name with
  | (s1, .error e) => (s1, .error e)
  | (s1, .ok new_view) =>
    match srvDeleteByUrl s1 (viewUrl s1.root self) deleteOk with
    | .error e => (s1, .error e)
    | .ok s2 => (s2, .ok new_view)

theorem viewUrl_inj (root a b : PyStr) (h : viewUrl root a = viewUrl root b) :
    a = b := by
  unfold viewUrl at h
  exact List.append_cancel_left (List.append_cancel_right h)

theorem find?_viewUrl (root m : PyStr) (l : List (PyStr × ViewCfg)) :
    (l.find? (fun e => decide (viewUrl root e.1 = viewUrl root m))).map (fun e => e.1) =
      (alookup m l).map (fun _ => m) := by
  induction l with
  | nil => rfl
  | cons e rest ih =>
    obtain ⟨k, c⟩ := e
    by_cases hk : k = m
    · subst hk
      rw [List.find?_cons_of_pos _ (by simp)]
      simp only [alookup, if_pos rfl]
      rfl
    · rw [List.find?_cons_of_neg _ (by
        simp only [decide_eq_true_eq]
        exact fun hu => hk (viewUrl_inj root k m hu))]
      simp only [alookup, if_neg hk]
      exact ih

theorem resolveViewUrl_canonical (s : VSrv) (m : PyStr) :
    resolveViewUrl s (viewUrl s.root m) = (alookup m s.views).map (fun _ => m) := by
  unfold resolveViewUrl
  exact find?_viewUrl s.root m s.views

/-- The server state after a successful `View.clone` of `v1` (with config
`c1`) to the fresh name `n`: the newly created view carries `v1`'s config
document with only its name element rewritten to `n`. -/
def clonedState (s : VSrv) (n : PyStr) (c1 : ViewCfg) : VSrv :=
  { s with views := s.views ++
      [(n, { cfgName := n, typeToken := c1.typeToken, rest := c1.rest })] }

theorem akeys_append {β : Type} (l₁ l₂ : List (PyStr × β)) :
    akeys (l₁ ++ l₂) = akeys l₁ ++ akeys l₂ := by
  unfold akeys
  exact List.map_append _ _ _

theorem clone_eq (s : VSrv) (v1 n : PyStr) (c1 : ViewCfg)
    (h1 : alookup v1 s.views = some c1)
    (h2 : alookup n s.views = none)
    (hurl : replaceL (viewUrl s.root v1) v1 n = viewUrl s.root n) :
    View.clone s v1 n = (clonedState s n c1, .ok (viewUrl s.root n)) := by
  have e1 : viewType s v1 = .ok c1.typeToken := by
    unfold viewType
    rw [h1]
  have e2 : srvCreateView s n c1.typeToken = .ok
      { s with views := s.views ++
          [(n, { cfgName := n, typeToken := c1.typeToken, rest := 0 })] } := by
    unfold srvCreateView
    rw [h2]
  have hl1 : alookup v1 (s.views ++
      [(n, { cfgName := n, typeToken := c1.typeToken, rest := 0 })]) = some c1 :=
    alookup_append_left v1 s.views _ c1 h1
  have hln : alookup n (s.views ++
      [(n, { cfgName := n, typeToken := c1.typeToken, rest := 0 })]) =
      some { cfgName := n, typeToken := c1.typeToken, rest := 0 } := by
    rw [alookup_append_right n s.views _ h2]
    simp [alookup]
  unfold View.clone
  rw [e1]
  dsimp only
  rw [e2]
  dsimp only
  unfold viewApiName
  rw [hl1]
  dsimp only
  rw [hurl]
  unfold srvSetConfigByUrl
  have hres : resolveViewUrl
      { s with views := s.views ++
          [(n, { cfgName := n, typeToken := c1.typeToken, rest := 0 })] }
      (viewUrl s.root n) =
      some n := by
    rw [show (viewUrl s.root n) = viewUrl ({ s with views := s.views ++
        [(n, { cfgName := n, typeToken := c1.typeToken, rest := 0 })] } : VSrv).root n
      from rfl]
    rw [resolveViewUrl_canonical]
    dsimp only
    rw [hln]
    rfl
  rw [hres]
  dsimp only
  unfold vxmlRename clonedState
  rw [aupdate_append_fresh n _ _ s.views h2]

/-- C3 (amended): cloning view `v1` to a fresh name `n` creates the new
view with the same type token as `v1` (the creation request's mode is
`v1`'s type) and writes back `v1`'s config document with only its name
element rewritten to `n`, so the clone reports `type` equal to `v1`'s
type, name equal to `n`, and the rest of its configuration equal to
`v1`'s at clone time — provided the textual URL substitution
`self.url.replace(self.name, new_name)` yields the clone's canonical URL
(true whenever `v1`'s name occurs in its URL only as its own path
segment).  When the name recurs elsewhere in the URL the write-back
misses the clone and the call raises instead (see the counterexample). -/
theorem view_clone_spec (s : VSrv) (v1 n : PyStr) (c1 : ViewCfg)
    (h1 : alookup v1 s.views = some c1)
    (h2 : alookup n s.views = none)
    (hurl : replaceL (viewUrl s.root v1) v1 n = viewUrl s.root n) :
    View.clone s v1 n = (clonedState s n c1, .ok (viewUrl s.root n)) ∧
    viewType s v1 = .ok c1.typeToken ∧
    viewType (clonedState s n c1) n = .ok c1.typeToken ∧
    viewApiName (clonedState s n c1) n = .ok n ∧
    alookup n (clonedState s n c1).views =
      some { cfgName := n, typeToken := c1.typeToken, rest := c1.rest } ∧
    alookup v1 (clonedState s n c1).views = some c1 := by
  have hln : alookup n (clonedState s n c1).views =
      some { cfgName := n, typeToken := c1.typeToken, rest := c1.rest } := by
    unfold clonedState
    dsimp only
    rw [alookup_append_right n s.views _ h2]
    simp [alookup]
  refine ⟨clone_eq s v1 n c1 h1 h2 hurl, ?_, ?_, ?_, hln, ?_⟩
  · unfold viewType
    rw [h1]
  · unfold viewType
    rw [hln]
  · unfold viewApiName
    rw [hln]
  · unfold clonedState
    dsimp only
    exact alookup_append_left v1 s.views _ c1 h1

/-- Witness for C3 at a concrete dashboard: cloning the list view `"V1"`
to `"V2"` copies the type token and the job-filter payload and renames
only the name element. -/
theorem view_clone_spec_witness :
    View.clone
        { root := pys "http://s/",
          views := [(pys "V1", { cfgName := pys "V1",
                                 typeToken := pys "hudson.model.ListView",
                                 rest := 7 })] }
        (pys "V1") (pys "V2") =
      (clonedState
          { root := pys "http://s/",
            views := [(pys "V1", { cfgName := pys "V1",
                                   typeToken := pys "hudson.model.ListView",
                                   rest := 7 })] }
          (pys "V2")
          { cfgName := pys "V1", typeToken := pys "hudson.model.ListView", rest := 7 },
        .ok (viewUrl (pys "http://s/") (pys "V2"))) ∧
    alookup (pys "V2")
        (clonedState
          { root := pys "http://s/",
            views := [(pys "V1", { cfgName := pys "V1",
                                   typeToken := pys "hudson.model.ListView",
                                   rest := 7 })] }
          (pys "V2")
          { cfgName := pys "V1", typeToken := pys "hudson.model.ListView",
            rest := 7 }).views =
      some { cfgName := pys "V2", typeToken := pys "hudson.model.ListView", rest := 7 } :=
  ⟨(view_clone_spec _ (pys "V1") (pys "V2") _ (by decide) (by decide) (by decide)).1,
   (view_clone_spec _ (pys "V1") (pys "V2") _ (by decide) (by decide) (by decide)).2.2.2.2.1⟩

/-- C3 counterexample: a view named `"view"` has URL
`http://s/view/view/`, and `self.url.replace(self.name, "V2")` replaces
every occurrence, producing `http://s/V2/V2/` — not the clone's URL.  The
write-back of the renamed config document then misses the clone: the call
raises a 404 transport error and leaves the half-initialized clone with
its default configuration, so the claim's conclusion (a clone whose
remaining configuration equals the source's) fails for this view. -/
theorem view_clone_url_counterexample :
    replaceL (viewUrl (pys "http://s/") (pys "view")) (pys "view") (pys "V2") =
      pys "http://s/V2/V2/" ∧
    View.clone
        { root := pys "http://s/",
          views := [(pys "view", { cfgName := pys "view",
                                   typeToken := pys "hudson.model.ListView",
                                   rest := 7 })] }
        (pys "view") (pys "V2") =
      ({ root := pys "http://s/",
         views := [(pys "view", { cfgName := pys "view",
                                  typeToken := pys "hudson.model.ListView",
                                  rest := 7 }),
                   (pys "V2", { cfgName := pys "V2",
                                typeToken := pys "hudson.model.ListView",
                                rest := 0 })] },
       .error (.transport 404)) := by
  constructor
  · rfl
  · rfl

/-- C4: `View.rename` is exactly the clone operation to the new name
followed by deletion of the original view, in that order, returning the
new view object.  The sequence is not atomic: when the deletion POST fails
after a successful clone, the call raises and the server is left holding
both the original view and the clone — no rollback is attempted. -/
theorem view_rename_spec (s : VSrv) (v1 n : PyStr) (c1 : ViewCfg)
    (h1 : alookup v1 s.views = some c1)
    (h2 : alookup n s.views = none)
    (hurl : replaceL (viewUrl s.root v1) v1 n = viewUrl s.root n)
    (hnd : (akeys s.views).Nodup) :
    (View.rename s v1 n true =
        ({ s with views := aremove v1 (clonedState s n c1).views },
          .ok (viewUrl s.root n)) ∧
      alookup v1 (aremove v1 (clonedState s n c1).views) = none ∧
      alookup n (aremove v1 (clonedState s n c1).views) =
        some { cfgName := n, typeToken := c1.typeToken, rest := c1.rest }) ∧
    (View.rename s v1 n false = (clonedState s n c1, .error (.transport 500)) ∧
      alookup v1 (clonedState s n c1).views = some c1 ∧
      alookup n (clonedState s n c1).views =
        some { cfgName := n, typeToken := c1.typeToken, rest := c1.rest }) := by
  have hne : v1 ≠ n := by
    intro he
    rw [he, h2] at h1
    exact Option.noConfusion h1
  have hl1 : alookup v1 (clonedState s n c1).views = some c1 := by
    unfold clonedState
    exact alookup_append_left v1 s.views _ c1 h1
  have hln : alookup n (clonedState s n c1).views =
      some { cfgName := n, typeToken := c1.typeToken, rest := c1.rest } := by
    unfold clonedState
    dsimp only
    rw [alookup_append_right n s.views _ h2]
    simp [alookup]
  have hndc : (akeys (clonedState s n c1).views).Nodup := by
    unfold clonedState
    dsimp only
    rw [akeys_append]
    rw [List.nodup_append]
    refine ⟨hnd, by simp [akeys], ?_⟩
    intro x hx hxmem
    have hxn : x = n := by simpa [akeys] using hxmem
    exact (alookup_eq_none_iff n s.views).mp h2 (hxn ▸ hx)
  have hresdel : resolveViewUrl (clonedState s n c1)
      (viewUrl (clonedState s n c1).root v1) = some v1 := by
    rw [resolveViewUrl_canonical, hl1]
    rfl
  have hceq := clone_eq s v1 n c1 h1 h2 hurl
  refine ⟨⟨?_, ?_, ?_⟩, ⟨?_, hl1, hln⟩⟩
  · unfold View.rename
    rw [hceq]
    dsimp only
    unfold srvDeleteByUrl
    dsimp only
    rw [hresdel]
    rfl
  · exact alookup_aremove_self v1 _ hndc
  · rw [alookup_aremove_ne n v1 _ (fun h => hne h.symm)]
    exact hln
  · unfold View.rename
    rw [hceq]
    rfl

/-- Witness for C4 at a concrete dashboard: renaming `"V1"` to `"V2"`
deletes the original after cloning when the delete succeeds, and leaves
both views behind when the delete fails. -/
theorem view_rename_spec_witness :
    (View.rename
        { root := pys "http://s/",
          views := [(pys "V1", { cfgName := pys "V1",
                                 typeToken := pys "hudson.model.ListView",
                                 rest := 3 })] }
        (pys "V1") (pys "V2") true =
      ({ root := pys "http://s/",
         views := aremove (pys "V1")
           (clonedState
              { root := pys "http://s/",
                views := [(pys "V1", { cfgName := pys "V1",
                                       typeToken := pys "hudson.model.ListView",
                                       rest := 3 })] }
              (pys "V2")
              { cfgName := pys "V1", typeToken := pys "hudson.model.ListView",
                rest := 3 }).views },
       .ok (viewUrl (pys "http://s/") (pys "V2"))) ∧
      alookup (pys "V1")
        (aremove (pys "V1")
          (clonedState
            { root := pys "http://s/",
              views := [(pys "V1", { cfgName := pys "V1",
                                     typeToken := pys "hudson.model.ListView",
                                     rest := 3 })] }
            (pys "V2")
            { cfgName := pys "V1", typeToken := pys "hudson.model.ListView",
              rest := 3 }).views) = none ∧
      alookup (pys "V2")
        (aremove (pys "V1")
          (clonedState
            { root := pys "http://s/",
              views := [(pys "V1", { cfgName := pys "V1",
                                     typeToken := pys "hudson.model.ListView",
                                     rest := 3 })] }
            (pys "V2")
            { cfgName := pys "V1", typeToken := pys "hudson.model.ListView",
              rest := 3 }).views) =
        some { cfgName := pys "V2", typeToken := pys "hudson.model.ListView",
               rest := 3 }) ∧
    (View.rename
        { root := pys "http://s/",
          views := [(pys "V1", { cfgName := pys "V1",
                                 typeToken := pys "hudson.model.ListView",
                                 rest := 3 })] }
        (pys "V1") (pys "V2") false =
      (clonedState
          { root := pys "http://s/",
            views := [(pys "V1", { cfgName := pys "V1",
                                   typeToken := pys "hudson.model.ListView",
                                   rest := 3 })] }
          (pys "V2")
          { cfgName := pys "V1", typeToken := pys "hudson.model.ListView", rest := 3 },
       .error (.transport 500)) ∧
      alookup (pys "V1")
        (clonedState
          { root := pys "http://s/",
            views := [(pys "V1", { cfgName := pys "V1",
                                   typeToken := pys "hudson.model.ListView",
                                   rest := 3 })] }
          (pys "V2")
          { cfgName := pys "V1", typeToken := pys "hudson.model.ListView",
            rest := 3 }).views =
        some { cfgName := pys "V1", typeToken := pys "hudson.model.ListView",
               rest := 3 } ∧
      alookup (pys "V2")
        (clonedState
          { root := pys "http://s/",
            views := [(pys "V1", { cfgName := pys "V1",
                                   typeToken := pys "hudson.model.ListView",
                                   rest := 3 })] }
          (pys "V2")
          { cfgName := pys "V1", typeToken := pys "hudson.model.ListView",
            rest := 3 }).views =
        some { cfgName := pys "V2", typeToken := pys "hudson.model.ListView",
               rest := 3 }) :=
  view_rename_spec
    { root := pys "http://s/",
      views := [(pys "V1", { cfgName := pys "V1",
                             typeToken := pys "hudson.model.ListView", rest := 3 })] }
    (pys "V1") (pys "V2")
    { cfgName := pys "V1", typeToken := pys "hudson.model.ListView", rest := 3 }
    (by decide) (by decide) (by decide) (by decide)

end PyJen
